import Mathlib

/-!
Shallow embedding of the availability and conflict-resolution engine of the
room-booking backend (TypeScript sources `src/utils/date.util.ts`,
`src/services/booking.service.ts`, `src/services/room.service.ts`).

Modelling conventions:
* A JavaScript `Date` is its timestamp: an integer number of milliseconds
  since the epoch (`Millis := Int`).  All `Date` comparisons in the source
  (`<`, `>=`, `getTime()`) are timestamp comparisons, which this preserves.
* The process-local timezone is taken to be UTC (offset 0), so the local
  calendar day of an instant `t` is the block
  `[dayIndex t * 86400000, (dayIndex t + 1) * 86400000)`.
  `date.toDateString()` equality, the `getDate/getMonth/getFullYear`
  triple-equality, and `new Date("YYYY-MM-DD")` parsing are all expressed
  through `dayIndex`.
* `d.setHours(h, 0, 0, 0)` is `atHour d h`: midnight of `d`'s calendar day
  plus `h` hours (this is also exact for `h = 24`, which rolls over to the
  next midnight, as `setHours` does).
* JavaScript numbers behave as exact rationals on every arithmetic
  expression appearing in the sources (integer-millisecond operands far
  below 2^53; the single division, by 60000 in `isValidBookingDuration`,
  cannot round across any of the compared thresholds), so `Int`/`Rat`
  arithmetic is faithful.
* Mongoose queries/updates against the `bookings` collection become pure
  list operations over an explicit database state `DB`; a thrown `Error`
  becomes `Except.error` with the thrown message, and the current instant
  `new Date()` becomes an explicit `now` argument.
-/

namespace RoomBooking

abbrev Millis := Int

def msPerDay : Int := 86400000

def msPerHour : Int := 3600000

def msPerMinute : Int := 60000

/-- The local calendar day an instant falls on (UTC-offset-0 model of
`toDateString()` / the `getFullYear`/`getMonth`/`getDate` triple). -/
def dayIndex (t : Millis) : Int := Int.fdiv t msPerDay

/-- `new Date(t).setHours(h, 0, 0, 0)`: hour `h` on `t`'s calendar day. -/
def atHour (t : Millis) (h : Int) : Millis := dayIndex t * msPerDay + h * msPerHour

/-- `a.toDateString() === b.toDateString()` (same local calendar day). -/
def sameCalendarDay (a b : Millis) : Bool := dayIndex a == dayIndex b

/-- `date.util.ts` `isOverlapping`: `newStart < existingEnd && newEnd > existingStart`. -/
def isOverlapping (existingStart existingEnd newStart newEnd : Millis) : Bool :=
  decide (newStart < existingEnd) && decide (newEnd > existingStart)

/-- `date.util.ts` `isDateInPast`: if `date` is on the same calendar day as
`now`, compare `getTime()`; otherwise compare the `Date`s (their valueOf,
i.e. again the timestamps). -/
def isDateInPast (date : Millis) (now : Millis) : Bool :=
  if sameCalendarDay date now then
    decide (date < now)
  else
    decide (date < now)

/-- `date.util.ts` `isValidBookingDuration` (source defaults
`maxHours = 120`, `minMinutes = 30`, passed explicitly here).  The source
computes `durationInMinutes = (end - start) / (1000*60)` — exact rational
division on integer-millisecond operands — and tests
`durationInMinutes <= maxHours*60 && durationInMinutes >= minMinutes`;
multiplying both comparisons through by the positive 60000 gives the
equivalent integer form used here. -/
def isValidBookingDuration (startTime endTime : Millis) (maxHours minMinutes : Int) : Bool :=
  let durationInMs := endTime - startTime
  let maxMinutes := maxHours * 60
  decide (durationInMs ≤ maxMinutes * 60000) && decide (minMinutes * 60000 ≤ durationInMs)

-- -------------------- Data model --------------------

/-- `booking.model.ts` status enum: `['active', 'cancelled', 'pending', 'confirmed']`. -/
inductive BookingStatus
  | active
  | cancelled
  | pending
  | confirmed
deriving DecidableEq

/-- A persisted booking document (`_id`, `roomId`, `userId`, `startTime`,
`endTime`, `status`).  `_id` is modelled as a `Nat`; room/user references
as `String`s. -/
structure Booking where
  id : Nat
  roomId : String
  userId : String
  startTime : Millis
  endTime : Millis
  status : BookingStatus
deriving DecidableEq

/-- A room document: the fields the engine reads (`_id`, `isActive`). -/
structure Room where
  id : String
  isActive : Bool
deriving DecidableEq

/-- A user document: the fields the engine reads (`_id`, `role`). -/
structure User where
  id : String
  role : String
deriving DecidableEq

/-- The collections the engine queries, plus a fresh-`_id` counter for
inserts (Mongo `_id`s of existing documents are pairwise distinct; `WF`
below records this). -/
structure DB where
  rooms : List Room
  users : List User
  bookings : List Booking
  nextId : Nat
deriving DecidableEq

-- -------------------- Slot generator (`calculateAvailableSlots`) --------------------

/-- `date.util.ts` `AvailableSlot` (`start`, `end`, `durationMinutes`);
the source field `end` is a Lean keyword and is rendered `stop`. -/
structure AvailableSlot where
  start : Millis
  stop : Millis
  durationMinutes : Int
deriving DecidableEq

/-- Number of iterations of `for (let time = dayStart; time < dayEnd; time += step)`:
`⌈(dayEnd - dayStart) / step⌉` when `dayStart < dayEnd` and `0 < step`, else `0`. -/
def slotCount (dayStart dayEnd step : Millis) : Nat :=
  if dayStart < dayEnd ∧ 0 < step then ((dayEnd - dayStart + step - 1) / step).toNat else 0

/-- The successive values of `time` taken by that loop. -/
def slotTimes (dayStart dayEnd step : Millis) : List Millis :=
  (List.range (slotCount dayStart dayEnd step)).map (fun k : Nat => dayStart + (k : Int) * step)

/-- `date.util.ts` `calculateAvailableSlots` (source defaults
`openingHour = 9`, `closingHour = 18`, `slotDurationMinutes = 30`, passed
explicitly here): set `dayStart`/`dayEnd` via `setHours`, keep only the
bookings whose `startTime` is on `date`'s calendar day, take their
`[startTime, endTime)` ranges, and emit every slot `[t, t + step)` of the
business-hours walk that overlaps no kept range. -/
def calculateAvailableSlots (bookings : List Booking) (date : Millis)
    (openingHour closingHour slotDurationMinutes : Int) : List AvailableSlot :=
  let dayStart := atHour date openingHour
  let dayEnd := atHour date closingHour
  let dayBookings := bookings.filter (fun booking => sameCalendarDay booking.startTime date)
  let bookedRanges := dayBookings.map (fun booking => (booking.startTime, booking.endTime))
  let step := slotDurationMinutes * msPerMinute
  ((slotTimes dayStart dayEnd step).filter (fun slotStart =>
      ! bookedRanges.any (fun booked =>
          decide (slotStart < booked.2) && decide (slotStart + step > booked.1)))).map
    (fun slotStart =>
      { start := slotStart, stop := slotStart + step, durationMinutes := slotDurationMinutes })

-- -------------------- `booking.service.ts` --------------------

/-- `status: { $in: ['confirmed', 'active', 'pending'] }` — the "live"
status filter every conflict query of `booking.service.ts` applies. -/
def isLive (b : Booking) : Bool :=
  b.status == BookingStatus.confirmed || b.status == BookingStatus.active ||
    b.status == BookingStatus.pending

/-- `User.findById(userId).select('role')` then `user?.role === 'admin'`. -/
def checkUserIsAdmin (db : DB) (userId : String) : Bool :=
  match db.users.find? (fun user => user.id == userId) with
  | some user => user.role == "admin"
  | none => false

/-- `booking.service.ts` `checkRoomAvailability(roomId, startTime, endTime,
excludeBookingId?)`: the room's live bookings matching
`startTime: { $lt: endTime }, endTime: { $gt: startTime }` (the query's
`$or` has this single branch), minus the excluded `_id` when one is given
(`if (excludeBookingId)`); available iff that set is empty. -/
def checkRoomAvailability (db : DB) (roomId : String) (startTime endTime : Millis)
    (excludeBookingId : Option Nat) : Bool :=
  let overlappingBookings := db.bookings.filter (fun b =>
    b.roomId == roomId && isLive b &&
    decide (b.startTime < endTime) && decide (b.endTime > startTime) &&
    (match excludeBookingId with
     | some ex => b.id != ex
     | none => true))
  overlappingBookings.length == 0

/-- `booking.service.ts` `createBooking`.  The `!roomId` falsy test is the
`roomId = ""` case (`startTime`/`endTime` are `Date` objects, always
truthy); `new Date()` inside `isDateInPast` is the explicit `now`; the
Mongo insert appends a document with the fresh `_id` `db.nextId` and
status `'confirmed'`. -/
def createBooking (db : DB) (now : Millis) (roomId : String)
    (startTime endTime : Millis) (userId : String) : Except String (DB × Booking) :=
  if roomId == "" then
    .error "Missing required fields: roomId, startTime, endTime"
  else if startTime ≥ endTime then
    .error "Start time must be before end time"
  else if ! isValidBookingDuration startTime endTime 120 30 then
    .error "Booking duration cannot exceed 24 hours"
  else if isDateInPast startTime now then
    .error "Cannot book a room in the past"
  else
    match db.rooms.find? (fun room => room.id == roomId) with
    | none => .error "Room not found"
    | some room =>
      if ! room.isActive then
        .error "Room is not available for booking"
      else
        let overlappingBookings := db.bookings.filter (fun b =>
          b.roomId == roomId && isLive b &&
          decide (b.startTime < endTime) && decide (b.endTime > startTime))
        if overlappingBookings.length > 0 then
          .error "Room is already booked during this time"
        else
          let booking : Booking :=
            { id := db.nextId, roomId := roomId, userId := userId,
              startTime := startTime, endTime := endTime,
              status := BookingStatus.confirmed }
          .ok ({ db with bookings := db.bookings ++ [booking], nextId := db.nextId + 1 },
               booking)

/-- `booking.service.ts` `rescheduleBooking`: validate the new window,
load the booking, authorize (owner or admin), reject when the existing
start has elapsed, check live conflicts excluding this `_id`
(`_id: { $ne: existingBooking._id }`), then save the new times in place
(the document with that `_id` gets the new window; status unchanged). -/
def rescheduleBooking (db : DB) (now : Millis) (bookingId : Nat)
    (startTime endTime : Millis) (userId : String) : Except String (DB × Booking) :=
  if startTime ≥ endTime then
    .error "Start time must be before end time"
  else if ! isValidBookingDuration startTime endTime 120 30 then
    .error "Booking duration cannot exceed 24 hours"
  else if isDateInPast startTime now then
    .error "Cannot reschedule to a past time"
  else
    match db.bookings.find? (fun b => b.id == bookingId) with
    | none => .error "Booking not found"
    | some existingBooking =>
      if existingBooking.userId != userId && ! checkUserIsAdmin db userId then
        .error "Not authorized to reschedule this booking"
      else if isDateInPast existingBooking.startTime now then
        .error "Cannot reschedule a past booking"
      else
        let overlappingBookings := db.bookings.filter (fun b =>
          b.roomId == existingBooking.roomId && b.id != existingBooking.id &&
          isLive b &&
          decide (b.startTime < endTime) && decide (b.endTime > startTime))
        if overlappingBookings.length > 0 then
          .error "Room is already booked during this time"
        else
          let updated : Booking :=
            { existingBooking with startTime := startTime, endTime := endTime }
          .ok ({ db with bookings := db.bookings.map (fun b =>
                  if b.id == existingBooking.id then updated else b) },
               updated)

/-- `booking.service.ts` `cancelBooking`: load, authorize (owner or
admin), reject when the start has elapsed, then save
`status = 'cancelled'` in place; every other field is untouched. -/
def cancelBooking (db : DB) (now : Millis) (bookingId : Nat)
    (userId : String) : Except String (DB × Booking) :=
  match db.bookings.find? (fun b => b.id == bookingId) with
  | none => .error "Booking not found"
  | some booking =>
    if booking.userId != userId && ! checkUserIsAdmin db userId then
      .error "Not authorized to cancel this booking"
    else if isDateInPast booking.startTime now then
      .error "Cannot cancel a past booking"
    else
      let updated : Booking := { booking with status := BookingStatus.cancelled }
      .ok ({ db with bookings := db.bookings.map (fun b =>
              if b.id == booking.id then updated else b) },
           updated)

-- -------------------- `room.service.ts` --------------------

/-- Insertion step of the stable `sort({ startTime: 1 })`. -/
def insertByStart (b : Booking) : List Booking → List Booking
  | [] => [b]
  | c :: cs => if b.startTime ≤ c.startTime then b :: c :: cs else c :: insertByStart b cs

/-- Mongo's `sort({ startTime: 1 })` on the fetched bookings. -/
def sortByStartTime : List Booking → List Booking
  | [] => []
  | b :: bs => insertByStart b (sortByStartTime bs)

/-- `room.service.ts` `getBookingsForRoom(roomId, date)`: `roomId` must be
non-empty (`roomIdSchema`; the model's date argument is an already valid
`YYYY-MM-DD` day index, so `dateSchema` passes); then fetch the room's
bookings with `startTime >= date T00:00:00.000Z`,
`endTime <= date T23:59:59.999Z` and `status ∈ ['confirmed', 'pending']`,
sorted by `startTime`. -/
def getBookingsForRoom (db : DB) (roomId : String) (date : Int) :
    Except String (List Booking) :=
  if roomId.length < 1 then
    .error "Validation error"
  else
    let startOfDay := date * msPerDay
    let endOfDay := date * msPerDay + msPerDay - 1
    .ok (sortByStartTime (db.bookings.filter (fun b =>
      b.roomId == roomId &&
      decide (startOfDay ≤ b.startTime) && decide (b.endTime ≤ endOfDay) &&
      (b.status == BookingStatus.confirmed || b.status == BookingStatus.pending))))

/-- Zod bound check for an optional numeric field: `z.number().min(lo).max(hi).optional()`. -/
def optionInRange (o : Option Int) (lo hi : Int) : Bool :=
  match o with
  | none => true
  | some x => decide (lo ≤ x) && decide (x ≤ hi)

/-- `room.service.ts` `checkSingleRoomAvailability(roomId, date, options)`,
returning the computed slot list (the response formatting around it —
ISO strings, counts, flags — is dropped).  Steps: zod-validate the
options (`openingHour ∈ [0,23]`, `closingHour ∈ [1,24]`,
`slotDuration ∈ [15,180]`, all optional, defaults `9`/`18`/`30`), reject
`openingHour >= closingHour`, require the room to exist and be active,
fetch the room's bookings for the day via `getBookingsForRoom`, and hand
them to `calculateAvailableSlots` with `targetDate = new Date(date)`
(UTC midnight of the day). -/
def checkSingleRoomAvailability (db : DB) (roomId : String) (date : Int)
    (openingHour closingHour slotDuration : Option Int) :
    Except String (List AvailableSlot) :=
  if ! (optionInRange openingHour 0 23 && optionInRange closingHour 1 24 &&
        optionInRange slotDuration 15 180) then
    .error "Validation error"
  else
    let oh := openingHour.getD 9
    let ch := closingHour.getD 18
    let sd := slotDuration.getD 30
    if oh ≥ ch then
      .error "Opening hour must be before closing hour"
    else
      match db.rooms.find? (fun room => room.id == roomId) with
      | none => .error "Room not found"
      | some room =>
        if ! room.isActive then
          .error "Room is inactive"
        else
          match getBookingsForRoom db roomId date with
          | .error e => .error e
          | .ok bookings => .ok (calculateAvailableSlots bookings (date * msPerDay) oh ch sd)

-- -------------------- Operation sequences and the no-double-booking invariant --------------------

/-- One externally invoked mutation: a `createBooking` or
`rescheduleBooking` call, executed at its own instant `now`. -/
inductive Op
  | create (roomId : String) (startTime endTime : Millis) (userId : String) (now : Millis)
  | reschedule (bookingId : Nat) (startTime endTime : Millis) (userId : String) (now : Millis)

/-- Run one call sequentially: a successful call commits its new state, a
call that raises an error leaves the state unchanged. -/
def applyOp (db : DB) (op : Op) : DB :=
  match op with
  | .create roomId s e userId now =>
    match createBooking db now roomId s e userId with
    | .ok (db', _) => db'
    | .error _ => db
  | .reschedule bookingId s e userId now =>
    match rescheduleBooking db now bookingId s e userId with
    | .ok (db', _) => db'
    | .error _ => db

/-- Run a sequence of calls left to right. -/
def runOps (db : DB) (ops : List Op) : DB := ops.foldl applyOp db

/-- The half-open overlap relation on two bookings' windows, as a `Prop`
(`isOverlapping` of their windows). -/
def Overlaps (a b : Booking) : Prop := a.startTime < b.endTime ∧ b.startTime < a.endTime

/-- The room's live bookings. -/
def liveBookingsFor (db : DB) (roomId : String) : List Booking :=
  db.bookings.filter (fun b => b.roomId == roomId && isLive b)

/-- The core invariant: the room's live bookings are pairwise
non-overlapping. -/
def NoDoubleBooking (db : DB) (roomId : String) : Prop :=
  (liveBookingsFor db roomId).Pairwise (fun a b => ¬ Overlaps a b)

/-- Well-formedness the storage layer guarantees: Mongo `_id`s are
pairwise distinct, and the fresh-id counter is ahead of every stored id. -/
def WF (db : DB) : Prop :=
  (db.bookings.map Booking.id).Nodup ∧ ∀ b ∈ db.bookings, b.id < db.nextId

-- -------------------- Concrete stores used by witnesses and counterexamples --------------------

/-- A room with one `'active'`-status booking from 10:00 to 11:00 of day
0, exercised against the availability service. -/
def activeBookingDb : DB :=
  { rooms := [{ id := "r1", isActive := true }],
    users := [],
    bookings := [{ id := 0, roomId := "r1", userId := "u1",
                   startTime := 36000000, endTime := 39600000,
                   status := BookingStatus.active }],
    nextId := 1 }

/-- Concrete store for exercising the booking lifecycle: one active room,
one user, no bookings yet. -/
def dbW : DB :=
  { rooms := [{ id := "r1", isActive := true }],
    users := [{ id := "u1", role := "user" }],
    bookings := [],
    nextId := 0 }

/-- Concrete call sequence: a successful create followed by a successful
reschedule of the created booking. -/
def opsW : List Op :=
  [Op.create "r1" 1000000000000 1000003600000 "u1" 0,
   Op.reschedule 0 1000007200000 1000010800000 "u1" 0]

end RoomBooking

namespace RoomBooking

/-- C3: `isOverlapping` is the half-open overlap test: true iff
`newStart < existingEnd ∧ newEnd > existingStart`; it is symmetric in the
two intervals; and for `a ≤ b ≤ c` the adjacent half-open windows `[a, b)`
and `[b, c)` do not overlap. -/
theorem isOverlapping_spec (existingStart existingEnd newStart newEnd a b c : Millis)
    (hab : a ≤ b) (hbc : b ≤ c) :
    (isOverlapping existingStart existingEnd newStart newEnd = true ↔
      newStart < existingEnd ∧ newEnd > existingStart) ∧
    isOverlapping existingStart existingEnd newStart newEnd =
      isOverlapping newStart newEnd existingStart existingEnd ∧
    isOverlapping a b b c = false := by
  refine ⟨?_, ?_, ?_⟩
  · simp [isOverlapping]
  · simp only [isOverlapping]
    rcases lt_or_le newStart existingEnd with h₁ | h₁ <;>
      rcases lt_or_le existingStart newEnd with h₂ | h₂ <;>
        simp [h₁, h₂, not_lt.mpr, le_of_lt] <;> omega
  · simp [isOverlapping]

/-- Witness for `isOverlapping_spec` at `[0, 30)`, `[30, 60)` and `[0, 30)`, `[29, 60)`. -/
theorem isOverlapping_spec_witness :
    (isOverlapping 0 30 30 60 = false ∧ isOverlapping 0 30 29 60 = true) ∧
    (0 : Millis) ≤ 30 ∧ (30 : Millis) ≤ 60 :=
  ⟨⟨(isOverlapping_spec 0 30 30 60 0 30 60 (by norm_num) (by norm_num)).2.2,
    by decide⟩,
   by norm_num, by norm_num⟩

/-- With no bookings, `calculateAvailableSlots` keeps every candidate slot. -/
theorem calculateAvailableSlots_nil (date oh ch sd : Int) :
    calculateAvailableSlots [] date oh ch sd =
      (slotTimes (atHour date oh) (atHour date ch) (sd * msPerMinute)).map
        (fun t =>
          { start := t, stop := t + sd * msPerMinute, durationMinutes := sd }) := by
  simp [calculateAvailableSlots]

/-- C4: on any day with no busy intervals, the 9-to-18, 30-minute
configuration yields exactly 18 slots, in chronological order, the first
being `[09:00, 09:30)` and the last `[17:30, 18:00)` of that day, each
carrying `durationMinutes = 30`. -/
theorem calculateAvailableSlots_empty_day (date : Millis) :
    (calculateAvailableSlots [] date 9 18 30).length = 18 ∧
    List.Chain' (fun s t : AvailableSlot => s.start < t.start)
      (calculateAvailableSlots [] date 9 18 30) ∧
    (calculateAvailableSlots [] date 9 18 30).head? =
      some { start := atHour date 9, stop := atHour date 9 + 30 * msPerMinute,
             durationMinutes := 30 } ∧
    (calculateAvailableSlots [] date 9 18 30).getLast? =
      some { start := atHour date 17 + 30 * msPerMinute, stop := atHour date 18,
             durationMinutes := 30 } ∧
    ∀ s ∈ calculateAvailableSlots [] date 9 18 30, s.durationMinutes = 30 := by
  have hstep : (30 : Int) * msPerMinute = 1800000 := by norm_num [msPerMinute]
  have h18 : atHour date 18 = atHour date 9 + 32400000 := by
    unfold atHour msPerHour msPerDay
    ring
  have h17 : atHour date 17 + 30 * msPerMinute = atHour date 9 + 30600000 := by
    unfold atHour msPerHour msPerDay msPerMinute
    ring
  have hcount : slotCount (atHour date 9) (atHour date 18) (30 * msPerMinute) = 18 := by
    rw [slotCount, hstep, h18]
    have hcond : atHour date 9 < atHour date 9 + 32400000 ∧ (0 : Int) < 1800000 :=
      ⟨by linarith, by norm_num⟩
    rw [if_pos hcond]
    have hnum : atHour date 9 + 32400000 - atHour date 9 + 1800000 - 1 = 34199999 := by
      ring
    rw [hnum]
    decide
  have hrange : List.range 18 = [0, 1, 2, 3, 4, 5, 6, 7, 8, 9, 10, 11, 12, 13, 14, 15, 16, 17] := by
    rfl
  have hlist : calculateAvailableSlots [] date 9 18 30 =
      [0, 1800000, 3600000, 5400000, 7200000, 9000000, 10800000, 12600000, 14400000,
        16200000, 18000000, 19800000, 21600000, 23400000, 25200000, 27000000, 28800000,
        30600000].map
        (fun c : Int =>
          { start := atHour date 9 + c, stop := atHour date 9 + c + 1800000,
            durationMinutes := 30 }) := by
    rw [calculateAvailableSlots_nil, slotTimes, hcount, hstep, hrange]
    norm_num
  refine ⟨by rw [hlist]; rfl, ?_, ?_, ?_, by rw [hlist]; simp⟩
  · rw [hlist]
    simp only [List.map_cons, List.map_nil, List.chain'_cons, List.chain'_singleton, and_true]
    norm_num
  · rw [hlist]
    simp only [List.map_cons, List.head?_cons, Option.some.injEq]
    rw [hstep]
    norm_num
  · rw [hlist]
    simp only [List.map_cons, List.map_nil]
    rw [show atHour date 17 + 30 * msPerMinute = atHour date 9 + 30600000 from h17, h18]
    simp only [List.getLast?_cons_cons, List.getLast?_singleton, Option.some.injEq,
      AvailableSlot.mk.injEq]
    exact ⟨trivial, by ring, trivial⟩

/-- C6: a busy interval whose start is not on the requested calendar day is
filtered out by `calculateAvailableSlots`, so the returned slots are the
same as if it were absent, wherever it sits in the booking list. -/
theorem calculateAvailableSlots_ignores_other_day (l₁ l₂ : List Booking) (b : Booking)
    (date : Millis) (oh ch sd : Int)
    (hday : sameCalendarDay b.startTime date = false) :
    calculateAvailableSlots (l₁ ++ b :: l₂) date oh ch sd =
      calculateAvailableSlots (l₁ ++ l₂) date oh ch sd := by
  simp [calculateAvailableSlots, List.filter_append, List.filter_cons, hday]

/-- Witness for `calculateAvailableSlots_ignores_other_day`: an overnight
booking starting the previous day at 23:00 and reaching 09:30 of the
requested day removes no slot. -/
theorem calculateAvailableSlots_ignores_other_day_witness :
    sameCalendarDay (82800000 : Millis) 86400000 = false ∧
    calculateAvailableSlots
        [{ id := 1, roomId := "r1", userId := "u1", startTime := 82800000,
           endTime := 120600000, status := BookingStatus.confirmed }] 86400000 9 18 30 =
      calculateAvailableSlots [] 86400000 9 18 30 :=
  ⟨by decide,
   calculateAvailableSlots_ignores_other_day [] []
     { id := 1, roomId := "r1", userId := "u1", startTime := 82800000,
       endTime := 120600000, status := BookingStatus.confirmed }
     86400000 9 18 30 (by decide)⟩

/-- C10: `calculateAvailableSlots` is antitone in the busy-interval list:
every slot returned for a superlist of bookings is also returned for the
sublist. -/
theorem calculateAvailableSlots_antitone (l₁ l₂ : List Booking) (date oh ch sd : Int)
    (hsub : ∀ b ∈ l₁, b ∈ l₂) :
    ∀ s ∈ calculateAvailableSlots l₂ date oh ch sd,
      s ∈ calculateAvailableSlots l₁ date oh ch sd := by
  intro s hs
  simp only [calculateAvailableSlots, List.mem_map, List.mem_filter] at hs ⊢
  obtain ⟨t, ⟨ht, hfree⟩, rfl⟩ := hs
  refine ⟨t, ⟨ht, ?_⟩, rfl⟩
  rw [Bool.not_eq_true'] at hfree ⊢
  rw [List.any_eq_false] at hfree ⊢
  intro r hr
  apply hfree
  simp only [List.mem_map, List.mem_filter] at hr ⊢
  obtain ⟨bk, ⟨hbk, hbkday⟩, rfl⟩ := hr
  exact ⟨bk, ⟨hsub bk hbk, hbkday⟩, rfl⟩

/-- Witness for `calculateAvailableSlots_antitone`: the 09:00 slot survives
adding a 10:00-11:00 booking, and is also free with no bookings. -/
theorem calculateAvailableSlots_antitone_witness :
    (∀ b ∈ ([] : List Booking),
        b ∈ [({ id := 1, roomId := "r1", userId := "u1", startTime := 36000000,
                endTime := 39600000, status := BookingStatus.confirmed } : Booking)]) ∧
    ({ start := 32400000, stop := 34200000, durationMinutes := 30 } : AvailableSlot) ∈
      calculateAvailableSlots
        [{ id := 1, roomId := "r1", userId := "u1", startTime := 36000000,
           endTime := 39600000, status := BookingStatus.confirmed }] 0 9 18 30 ∧
    ({ start := 32400000, stop := 34200000, durationMinutes := 30 } : AvailableSlot) ∈
      calculateAvailableSlots [] 0 9 18 30 :=
  ⟨by simp, by decide,
   calculateAvailableSlots_antitone []
     [{ id := 1, roomId := "r1", userId := "u1", startTime := 36000000,
        endTime := 39600000, status := BookingStatus.confirmed }] 0 9 18 30
     (by simp) _ (by decide)⟩

/-- C5 counterexample: called with `openingHour = 18`, `closingHour = 9`
(so `closingHour ≤ openingHour`), `calculateAvailableSlots` does not signal
an invalid configuration — its codomain has no error outcome at all — and
silently returns the empty slot list. -/
theorem calculateAvailableSlots_inverted_hours_silent :
    calculateAvailableSlots [] 0 18 9 30 = [] := by decide

/-- `isLive` spelled out on the status enum. -/
theorem isLive_iff (b : Booking) :
    isLive b = true ↔
      (b.status = BookingStatus.pending ∨ b.status = BookingStatus.confirmed ∨
        b.status = BookingStatus.active) := by
  cases h : b.status <;> simp [isLive, h]

/-- An empty filtered collection is the same as no member matching. -/
theorem filter_length_eq_zero_iff {α : Type} {p : α → Bool} {l : List α} :
    ((l.filter p).length == 0) = true ↔ ∀ c ∈ l, ¬ p c = true := by
  rw [beq_iff_eq, List.length_eq_zero, List.filter_eq_nil_iff]

/-- C2: `checkRoomAvailability` answers true exactly when no live booking
of the room other than the excluded one meets the half-open window test,
and consequently a reschedule whose target window conflicts with nothing
but the moved booking itself passes every conflict guard and succeeds
(provided the usual window/duration/past/authorization validations hold). -/
theorem checkRoomAvailability_spec (db : DB) (roomId : String) (s e : Millis)
    (excl : Option Nat) (now : Millis) (bookingId : Nat) (b : Booking) (userId : String)
    (hwin : s < e) :
    (checkRoomAvailability db roomId s e excl = true ↔
      ¬ ∃ c ∈ db.bookings, c.roomId = roomId ∧
          (c.status = BookingStatus.pending ∨ c.status = BookingStatus.confirmed ∨
            c.status = BookingStatus.active) ∧
          (∀ ex, excl = some ex → c.id ≠ ex) ∧
          c.startTime < e ∧ c.endTime > s) ∧
    (db.bookings.find? (fun c => c.id == bookingId) = some b →
      isValidBookingDuration s e 120 30 = true →
      isDateInPast s now = false →
      (b.userId = userId ∨ checkUserIsAdmin db userId = true) →
      isDateInPast b.startTime now = false →
      checkRoomAvailability db b.roomId s e (some b.id) = true →
      ∃ r, rescheduleBooking db now bookingId s e userId = .ok r) := by
  have hmain : ∀ (roomId' : String) (excl' : Option Nat),
      checkRoomAvailability db roomId' s e excl' = true ↔
        ∀ c ∈ db.bookings,
          ¬ (c.roomId == roomId' && isLive c &&
              decide (c.startTime < e) && decide (c.endTime > s) &&
              (match excl' with
               | some ex => c.id != ex
               | none => true)) = true := by
    intro roomId' excl'
    simp only [checkRoomAvailability]
    exact filter_length_eq_zero_iff
  constructor
  · rw [hmain]
    constructor
    · intro h hex
      obtain ⟨c, hc, hroom, hstat, hexcl, h1, h2⟩ := hex
      apply h c hc
      simp only [Bool.and_eq_true, beq_iff_eq, decide_eq_true_eq]
      refine ⟨⟨⟨⟨hroom, (isLive_iff c).mpr hstat⟩, h1⟩, h2⟩, ?_⟩
      cases excl with
      | none => rfl
      | some ex => simpa using hexcl ex rfl
    · intro h c hc hpc
      apply h
      simp only [Bool.and_eq_true, beq_iff_eq, decide_eq_true_eq] at hpc
      obtain ⟨⟨⟨⟨hroom, hlive⟩, h1⟩, h2⟩, hex⟩ := hpc
      refine ⟨c, hc, hroom, (isLive_iff c).mp hlive, ?_, h1, h2⟩
      intro ex hx
      subst hx
      simpa using hex
  · intro hfind hdur hpast hauth hpastb hfree
    have hempty : ∀ c ∈ db.bookings,
        ¬ (c.roomId == b.roomId && c.id != b.id && isLive c &&
            decide (c.startTime < e) && decide (c.endTime > s)) = true := by
      rw [hmain b.roomId (some b.id)] at hfree
      intro c hc hpc
      apply hfree c hc
      simp only [Bool.and_eq_true] at hpc ⊢
      obtain ⟨⟨⟨⟨hroom, hid⟩, hlive⟩, h1⟩, h2⟩ := hpc
      exact ⟨⟨⟨⟨hroom, hlive⟩, h1⟩, h2⟩, hid⟩
    have hauth' : (b.userId != userId && ! checkUserIsAdmin db userId) = false := by
      rcases hauth with h | h <;> simp [h]
    have hfilter :
        db.bookings.filter (fun c =>
          c.roomId == b.roomId && c.id != b.id && isLive c &&
          decide (c.startTime < e) && decide (c.endTime > s)) = [] :=
      List.filter_eq_nil_iff.mpr hempty
    refine ⟨({ db with bookings := db.bookings.map (fun c =>
        if c.id == b.id then { b with startTime := s, endTime := e } else c) },
        { b with startTime := s, endTime := e }), ?_⟩
    rw [rescheduleBooking, if_neg (not_le.mpr hwin), hdur, hfind]
    simp only [Bool.not_true, Bool.false_eq_true, if_false, hpast, hauth', hpastb, hfilter]
    simp

/-- Witness for `checkRoomAvailability_spec`: a single-booking room is
free for a window that overlaps only that booking once it is excluded,
and the corresponding reschedule succeeds. -/
theorem checkRoomAvailability_spec_witness :
    checkRoomAvailability
        { rooms := [{ id := "r1", isActive := true }],
          users := [{ id := "u1", role := "user" }],
          bookings := [{ id := 0, roomId := "r1", userId := "u1",
                         startTime := 100000000000, endTime := 100003600000,
                         status := BookingStatus.confirmed }],
          nextId := 1 }
        "r1" 100001800000 100005400000 (some 0) = true ∧
    ∃ r, rescheduleBooking
        { rooms := [{ id := "r1", isActive := true }],
          users := [{ id := "u1", role := "user" }],
          bookings := [{ id := 0, roomId := "r1", userId := "u1",
                         startTime := 100000000000, endTime := 100003600000,
                         status := BookingStatus.confirmed }],
          nextId := 1 }
        0 0 100001800000 100005400000 "u1" = .ok r := by
  have h := checkRoomAvailability_spec
    { rooms := [{ id := "r1", isActive := true }],
      users := [{ id := "u1", role := "user" }],
      bookings := [{ id := 0, roomId := "r1", userId := "u1",
                     startTime := 100000000000, endTime := 100003600000,
                     status := BookingStatus.confirmed }],
      nextId := 1 }
    "r1" 100001800000 100005400000 (some 0) 0 0
    { id := 0, roomId := "r1", userId := "u1",
      startTime := 100000000000, endTime := 100003600000,
      status := BookingStatus.confirmed }
    "u1" (by norm_num)
  exact ⟨(h.1).mpr (by decide), h.2 (by decide) (by decide) (by decide)
    (Or.inl rfl) (by decide) (by decide)⟩

/-- C9: a successful `cancelBooking` flips exactly the status of the
targeted booking to `cancelled`, keeping its id, room, user and window,
and leaves the rest of the state (rooms, users, counter, every other
booking) unchanged. -/
theorem cancelBooking_frame (db : DB) (now : Millis) (bookingId : Nat) (userId : String)
    (b : Booking)
    (hfind : db.bookings.find? (fun c => c.id == bookingId) = some b)
    (hauth : b.userId = userId ∨ checkUserIsAdmin db userId = true)
    (hpast : isDateInPast b.startTime now = false) :
    cancelBooking db now bookingId userId =
      .ok ({ db with bookings := db.bookings.map (fun c =>
               if c.id == b.id then { b with status := BookingStatus.cancelled } else c) },
           { b with status := BookingStatus.cancelled }) := by
  have hauth' : (b.userId != userId && ! checkUserIsAdmin db userId) = false := by
    rcases hauth with h | h <;> simp [h]
  rw [cancelBooking, hfind]
  simp only [hauth', Bool.false_eq_true, if_false, hpast]

/-- Witness for `cancelBooking_frame`: cancelling a concrete confirmed
booking as its owner. -/
theorem cancelBooking_frame_witness :
    cancelBooking
        { rooms := [{ id := "r1", isActive := true }],
          users := [{ id := "u2", role := "admin" }],
          bookings := [{ id := 3, roomId := "r1", userId := "u1",
                         startTime := 200000000000, endTime := 200003600000,
                         status := BookingStatus.confirmed }],
          nextId := 4 }
        0 3 "u1" =
      .ok ({ rooms := [{ id := "r1", isActive := true }],
             users := [{ id := "u2", role := "admin" }],
             bookings := [{ id := 3, roomId := "r1", userId := "u1",
                            startTime := 200000000000, endTime := 200003600000,
                            status := BookingStatus.cancelled }],
             nextId := 4 },
           { id := 3, roomId := "r1", userId := "u1",
             startTime := 200000000000, endTime := 200003600000,
             status := BookingStatus.cancelled }) := by
  have h := cancelBooking_frame
    { rooms := [{ id := "r1", isActive := true }],
      users := [{ id := "u2", role := "admin" }],
      bookings := [{ id := 3, roomId := "r1", userId := "u1",
                     startTime := 200000000000, endTime := 200003600000,
                     status := BookingStatus.confirmed }],
      nextId := 4 }
    0 3 "u1"
    { id := 3, roomId := "r1", userId := "u1",
      startTime := 200000000000, endTime := 200003600000,
      status := BookingStatus.confirmed }
    (by decide) (Or.inl rfl) (by decide)
  rw [h]
  rfl

/-- Inserting keeps the same multiset of bookings. -/
theorem insertByStart_perm (b : Booking) (l : List Booking) :
    (insertByStart b l).Perm (b :: l) := by
  induction l with
  | nil => exact List.Perm.refl _
  | cons c cs ih =>
    rw [insertByStart]
    split
    · exact List.Perm.refl _
    · exact (ih.cons c).trans (List.Perm.swap b c cs)

/-- Sorting by start time keeps the same multiset of bookings. -/
theorem sortByStartTime_perm (l : List Booking) : (sortByStartTime l).Perm l := by
  induction l with
  | nil => exact List.Perm.refl _
  | cons b bs ih => exact (insertByStart_perm b (sortByStartTime bs)).trans (ih.cons b)

/-- `List.any` only depends on the multiset of elements. -/
theorem any_congr_of_perm {α : Type} {l₁ l₂ : List α} (h : l₁.Perm l₂) (p : α → Bool) :
    l₁.any p = l₂.any p := by
  cases hb : l₂.any p
  · rw [List.any_eq_false] at hb ⊢
    intro x hx
    exact hb x (h.mem_iff.mp hx)
  · rw [List.any_eq_true] at hb ⊢
    obtain ⟨x, hx, hpx⟩ := hb
    exact ⟨x, h.mem_iff.mpr hx, hpx⟩

/-- The slot generator only depends on the multiset of bookings: its one
use of the booking list is an existential overlap test per slot. -/
theorem calculateAvailableSlots_congr_perm {l₁ l₂ : List Booking} (h : l₁.Perm l₂)
    (date oh ch sd : Int) :
    calculateAvailableSlots l₁ date oh ch sd = calculateAvailableSlots l₂ date oh ch sd := by
  have hperm :
      ((l₁.filter (fun booking => sameCalendarDay booking.startTime date)).map
        (fun booking => (booking.startTime, booking.endTime))).Perm
      ((l₂.filter (fun booking => sameCalendarDay booking.startTime date)).map
        (fun booking => (booking.startTime, booking.endTime))) :=
    (h.filter _).map _
  simp only [calculateAvailableSlots]
  congr 1
  refine List.filter_congr (fun t _ => ?_)
  rw [any_congr_of_perm hperm]

/-- C5 (amended): `calculateAvailableSlots` itself never rejects an
inverted-hours configuration — it returns the empty list — while its
caller `checkSingleRoomAvailability` rejects `openingHour >= closingHour`
with an error before ever invoking the generator. -/
theorem invertedHours_rejected (db : DB) (roomId : String) (date oh ch : Int)
    (h0 : 0 ≤ oh) (h23 : oh ≤ 23) (h1 : 1 ≤ ch) (h24 : ch ≤ 24) (hle : ch ≤ oh) :
    checkSingleRoomAvailability db roomId date (some oh) (some ch) none =
      .error "Opening hour must be before closing hour" ∧
    ∀ (bookings : List Booking) (d : Millis) (sd : Int),
      calculateAvailableSlots bookings d oh ch sd = [] := by
  constructor
  · rw [checkSingleRoomAvailability]
    have hopt : (optionInRange (some oh) 0 23 && optionInRange (some ch) 1 24 &&
        optionInRange none 15 180) = true := by
      simp [optionInRange, h0, h23, h1, h24]
    rw [hopt]
    simp only [Bool.not_true, Bool.false_eq_true, if_false, Option.getD_some]
    rw [if_pos hle]
  · intro bookings d sd
    have hle2 : atHour d ch ≤ atHour d oh := by
      unfold atHour
      have h3 : ch * msPerHour ≤ oh * msPerHour :=
        mul_le_mul_of_nonneg_right hle (by norm_num [msPerHour])
      linarith
    have hcount : slotCount (atHour d oh) (atHour d ch) (sd * msPerMinute) = 0 := by
      rw [slotCount, if_neg]
      rintro ⟨hlt, -⟩
      exact absurd hlt (not_lt.mpr hle2)
    simp [calculateAvailableSlots, slotTimes, hcount]

/-- Witness for `invertedHours_rejected` with hours 18 and 9. -/
theorem invertedHours_rejected_witness :
    checkSingleRoomAvailability
        { rooms := [], users := [], bookings := [], nextId := 0 }
        "r1" 0 (some 18) (some 9) none =
      .error "Opening hour must be before closing hour" ∧
    ∀ (bookings : List Booking) (d : Millis) (sd : Int),
      calculateAvailableSlots bookings d 18 9 sd = [] :=
  invertedHours_rejected { rooms := [], users := [], bookings := [], nextId := 0 }
    "r1" 0 18 9 (by norm_num) (by norm_num) (by norm_num) (by norm_num) (by norm_num)

/-- C7 counterexample: the availability service computes the day's free
slots ignoring the `'active'` booking entirely — it returns the full
18-slot day, and in particular the `[10:00, 10:30)` slot the active
booking covers is still reported free. -/
theorem activeBooking_does_not_block :
    checkSingleRoomAvailability activeBookingDb "r1" 0 none none none =
      .ok (calculateAvailableSlots [] 0 9 18 30) ∧
    ({ start := 36000000, stop := 37800000, durationMinutes := 30 } : AvailableSlot) ∈
      calculateAvailableSlots [] 0 9 18 30 :=
  ⟨by rfl, by decide⟩

/-- C7 (amended): on its success path the availability service hands the
slot generator exactly the room's bookings with status `'confirmed'` or
`'pending'` whose whole window lies within the requested day — so
`'active'` bookings never block a slot, and dropping them from the store
leaves the answer unchanged. -/
theorem checkSingleRoomAvailability_live_filter (db : DB) (roomId : String) (date : Int)
    (room : Room)
    (hid : 1 ≤ roomId.length)
    (hfind : db.rooms.find? (fun r => r.id == roomId) = some room)
    (hactive : room.isActive = true) :
    checkSingleRoomAvailability db roomId date none none none =
      .ok (calculateAvailableSlots
        (db.bookings.filter (fun b =>
          b.roomId == roomId &&
          decide (date * msPerDay ≤ b.startTime) &&
          decide (b.endTime ≤ date * msPerDay + msPerDay - 1) &&
          (b.status == BookingStatus.confirmed || b.status == BookingStatus.pending)))
        (date * msPerDay) 9 18 30) ∧
    checkSingleRoomAvailability db roomId date none none none =
      checkSingleRoomAvailability
        { db with bookings := db.bookings.filter (fun b => b.status != BookingStatus.active) }
        roomId date none none none := by
  have hform : ∀ bs : List Booking,
      checkSingleRoomAvailability { db with bookings := bs } roomId date none none none =
        .ok (calculateAvailableSlots
          (bs.filter (fun b =>
            b.roomId == roomId &&
            decide (date * msPerDay ≤ b.startTime) &&
            decide (b.endTime ≤ date * msPerDay + msPerDay - 1) &&
            (b.status == BookingStatus.confirmed || b.status == BookingStatus.pending)))
          (date * msPerDay) 9 18 30) := by
    intro bs
    rw [checkSingleRoomAvailability]
    simp only [optionInRange, Bool.and_self, Bool.not_true, Bool.false_eq_true, if_false,
      Option.getD_none]
    rw [if_neg (by norm_num), hfind]
    simp only [hactive, Bool.not_true, Bool.false_eq_true, if_false]
    rw [getBookingsForRoom, if_neg (Nat.not_lt.mpr hid)]
    exact congrArg Except.ok
      (calculateAvailableSlots_congr_perm (sortByStartTime_perm _) _ _ _ _)
  have hdb : checkSingleRoomAvailability db roomId date none none none =
      checkSingleRoomAvailability { db with bookings := db.bookings } roomId date none none none := rfl
  constructor
  · rw [hdb, hform db.bookings]
  · rw [hdb, hform db.bookings, hform (db.bookings.filter (fun b => b.status != BookingStatus.active))]
    rw [List.filter_filter]
    refine congrArg _ (congrArg (fun l => calculateAvailableSlots l (date * msPerDay) 9 18 30)
      (List.filter_congr (fun b _ => ?_)).symm)
    cases hb : b.status <;> simp [hb]

/-- Witness for `checkSingleRoomAvailability_live_filter` on the
concrete one-active-booking store. -/
theorem checkSingleRoomAvailability_live_filter_witness :
    checkSingleRoomAvailability activeBookingDb "r1" 0 none none none =
      .ok (calculateAvailableSlots
        (activeBookingDb.bookings.filter (fun b =>
          b.roomId == "r1" &&
          decide ((0 : Int) * msPerDay ≤ b.startTime) &&
          decide (b.endTime ≤ (0 : Int) * msPerDay + msPerDay - 1) &&
          (b.status == BookingStatus.confirmed || b.status == BookingStatus.pending)))
        ((0 : Int) * msPerDay) 9 18 30) ∧
    checkSingleRoomAvailability activeBookingDb "r1" 0 none none none =
      checkSingleRoomAvailability
        { activeBookingDb with bookings :=
            activeBookingDb.bookings.filter (fun b => b.status != BookingStatus.active) }
        "r1" 0 none none none :=
  checkSingleRoomAvailability_live_filter activeBookingDb "r1" 0
    { id := "r1", isActive := true } (by decide) (by decide) rfl

/-- Pairwise over a Boolean filter, as a guarded pairwise over the base list. -/
theorem pairwise_filter_bool {α : Type} {R : α → α → Prop} {p : α → Bool} {l : List α} :
    (l.filter p).Pairwise R ↔
      l.Pairwise (fun a b => p a = true → p b = true → R a b) := by
  induction l with
  | nil => simp
  | cons a t ih =>
    cases hp : p a with
    | false =>
      rw [List.filter_cons_of_neg (by simp [hp]), ih, List.pairwise_cons]
      constructor
      · intro h
        exact ⟨fun b _ hpa => absurd hpa (by simp [hp]), h⟩
      · intro h
        exact h.2
    | true =>
      rw [List.filter_cons_of_pos hp, List.pairwise_cons, List.pairwise_cons, ih]
      constructor
      · rintro ⟨h1, h2⟩
        exact ⟨fun b hb _ hpb => h1 b (List.mem_filter.mpr ⟨hb, hpb⟩), h2⟩
      · rintro ⟨h1, h2⟩
        refine ⟨fun b hb => ?_, h2⟩
        obtain ⟨hbt, hpb⟩ := List.mem_filter.mp hb
        exact h1 b hbt hp hpb

/-- What a successful `createBooking` tells us: the state only gained one
confirmed booking carrying the fresh id, and the conflict query found no
live overlapping booking of the room. -/
theorem createBooking_ok {db : DB} {now : Millis} {roomId : String} {s e : Millis}
    {userId : String} {db' : DB} {bk : Booking}
    (h : createBooking db now roomId s e userId = .ok (db', bk)) :
    db'.rooms = db.rooms ∧ db'.users = db.users ∧ db'.nextId = db.nextId + 1 ∧
    bk = { id := db.nextId, roomId := roomId, userId := userId, startTime := s,
           endTime := e, status := BookingStatus.confirmed } ∧
    db'.bookings = db.bookings ++ [bk] ∧
    ∀ c ∈ db.bookings,
      ¬ (c.roomId == roomId && isLive c &&
          decide (c.startTime < e) && decide (c.endTime > s)) = true := by
  simp only [createBooking] at h
  split at h
  · simp at h
  split at h
  · simp at h
  split at h
  · simp at h
  split at h
  · simp at h
  split at h
  · simp at h
  split at h
  · simp at h
  split at h
  · simp at h
  rename_i hlen
  rw [not_lt, Nat.le_zero, List.length_eq_zero, List.filter_eq_nil_iff] at hlen
  simp only [Except.ok.injEq, Prod.mk.injEq] at h
  obtain ⟨hdb', hbk⟩ := h
  subst hdb'
  subst hbk
  exact ⟨rfl, rfl, rfl, rfl, rfl, hlen⟩

/-- What a successful `rescheduleBooking` tells us: some stored booking was
found under the requested id, only its window changed, and the conflict
query found no other live overlapping booking of its room. -/
theorem rescheduleBooking_ok {db : DB} {now : Millis} {bookingId : Nat} {s e : Millis}
    {userId : String} {db' : DB} {bk : Booking}
    (h : rescheduleBooking db now bookingId s e userId = .ok (db', bk)) :
    ∃ ex, db.bookings.find? (fun c => c.id == bookingId) = some ex ∧
      bk = { ex with startTime := s, endTime := e } ∧
      db'.rooms = db.rooms ∧ db'.users = db.users ∧ db'.nextId = db.nextId ∧
      db'.bookings = db.bookings.map (fun c => if c.id == ex.id then bk else c) ∧
      ∀ c ∈ db.bookings,
        ¬ (c.roomId == ex.roomId && c.id != ex.id && isLive c &&
            decide (c.startTime < e) && decide (c.endTime > s)) = true := by
  simp only [rescheduleBooking] at h
  split at h
  · simp at h
  split at h
  · simp at h
  split at h
  · simp at h
  split at h
  · simp at h
  rename_i ex hfind
  split at h
  · simp at h
  split at h
  · simp at h
  split at h
  · simp at h
  rename_i hlen
  rw [not_lt, Nat.le_zero, List.length_eq_zero, List.filter_eq_nil_iff] at hlen
  simp only [Except.ok.injEq, Prod.mk.injEq] at h
  obtain ⟨hdb', hbk⟩ := h
  subst hdb'
  subst hbk
  exact ⟨ex, hfind, rfl, rfl, rfl, rfl, rfl, hlen⟩

/-- A successful `createBooking` preserves the room invariant: the new
confirmed booking was checked against every live booking of its room. -/
theorem NoDoubleBooking_create {db db' : DB} {now : Millis} {roomId : String}
    {s e : Millis} {userId : String} {bk : Booking} (r : String)
    (h : createBooking db now roomId s e userId = .ok (db', bk))
    (hinv : NoDoubleBooking db r) : NoDoubleBooking db' r := by
  obtain ⟨-, -, -, hbk, hbl, hfree⟩ := createBooking_ok h
  unfold NoDoubleBooking liveBookingsFor at hinv ⊢
  rw [hbl, List.filter_append, List.pairwise_append]
  refine ⟨hinv, ?_, ?_⟩
  · rw [List.filter_singleton]
    cases hq : (bk.roomId == r && isLive bk) <;> simp
  · intro a ha b hb
    rw [List.mem_filter] at ha
    obtain ⟨hat, hpa⟩ := ha
    rw [List.filter_singleton] at hb
    cases hq : (bk.roomId == r && isLive bk)
    · rw [hq] at hb
      simp at hb
    · rw [hq] at hb
      simp only [cond_true, List.mem_singleton] at hb
      subst hb
      subst hbk
      intro hov
      obtain ⟨ho1, ho2⟩ := hov
      simp only [Bool.and_eq_true, beq_iff_eq] at hq hpa
      apply hfree a hat
      simp only [Bool.and_eq_true, beq_iff_eq, decide_eq_true_eq]
      exact ⟨⟨⟨hpa.1.trans hq.1.symm, hpa.2⟩, ho1⟩, ho2⟩

/-- A successful `rescheduleBooking` preserves the room invariant: the new
window was checked against every other live booking of the room, and ids
are unique, so "other" excludes exactly the moved booking. -/
theorem NoDoubleBooking_reschedule {db db' : DB} {now : Millis} {bookingId : Nat}
    {s e : Millis} {userId : String} {bk : Booking} (r : String)
    (h : rescheduleBooking db now bookingId s e userId = .ok (db', bk))
    (hwf : WF db) (hinv : NoDoubleBooking db r) : NoDoubleBooking db' r := by
  obtain ⟨ex, hfind, hbk, -, -, -, hbl, hfree⟩ := rescheduleBooking_ok h
  subst hbk
  unfold NoDoubleBooking liveBookingsFor at hinv ⊢
  rw [hbl]
  rw [pairwise_filter_bool] at hinv ⊢
  rw [List.pairwise_map]
  have hids : db.bookings.Pairwise (fun a b => a.id ≠ b.id) :=
    List.pairwise_map.mp hwf.1
  refine List.Pairwise.imp_of_mem ?_ (hinv.and hids)
  intro a b ha hb hab hpa hpb hov
  obtain ⟨hguard, hne⟩ := hab
  by_cases haid : a.id = ex.id
  · have hfa : (if a.id == ex.id then { ex with startTime := s, endTime := e } else a) =
        { ex with startTime := s, endTime := e } := by simp [haid]
    by_cases hbid : b.id = ex.id
    · exact absurd (haid.trans hbid.symm) hne
    · have hfb : (if b.id == ex.id then { ex with startTime := s, endTime := e } else b) =
          b := by simp [hbid]
      rw [hfa] at hpa hov
      rw [hfb] at hpb hov
      simp only [Bool.and_eq_true, beq_iff_eq] at hpa hpb
      obtain ⟨ho1, ho2⟩ := hov
      apply hfree b hb
      simp only [Bool.and_eq_true, beq_iff_eq, bne_iff_ne, decide_eq_true_eq]
      exact ⟨⟨⟨⟨hpb.1.trans hpa.1.symm, hbid⟩, hpb.2⟩, ho2⟩, ho1⟩
  · have hfa : (if a.id == ex.id then { ex with startTime := s, endTime := e } else a) =
        a := by simp [haid]
    rw [hfa] at hpa hov
    by_cases hbid : b.id = ex.id
    · have hfb : (if b.id == ex.id then { ex with startTime := s, endTime := e } else b) =
          { ex with startTime := s, endTime := e } := by simp [hbid]
      rw [hfb] at hpb hov
      simp only [Bool.and_eq_true, beq_iff_eq] at hpa hpb
      obtain ⟨ho1, ho2⟩ := hov
      apply hfree a ha
      simp only [Bool.and_eq_true, beq_iff_eq, bne_iff_ne, decide_eq_true_eq]
      exact ⟨⟨⟨⟨hpa.1.trans hpb.1.symm, haid⟩, hpa.2⟩, ho1⟩, ho2⟩
    · have hfb : (if b.id == ex.id then { ex with startTime := s, endTime := e } else b) =
          b := by simp [hbid]
      rw [hfb] at hpb hov
      exact hguard hpa hpb hov

/-- A successful `createBooking` keeps ids unique: the inserted id is the
fresh counter value, above every stored id. -/
theorem WF_create {db db' : DB} {now : Millis} {roomId : String} {s e : Millis}
    {userId : String} {bk : Booking}
    (h : createBooking db now roomId s e userId = .ok (db', bk))
    (hwf : WF db) : WF db' := by
  obtain ⟨-, -, hnext, hbk, hbl, -⟩ := createBooking_ok h
  subst hbk
  constructor
  · rw [hbl, List.map_append, List.nodup_append]
    refine ⟨hwf.1, by simp, ?_⟩
    intro x hx hx2
    simp only [List.map_cons, List.map_nil, List.mem_singleton] at hx2
    rw [List.mem_map] at hx
    obtain ⟨c, hc, hcx⟩ := hx
    have hlt := hwf.2 c hc
    subst hcx
    exact absurd hx2 (Nat.ne_of_lt hlt)
  · intro c hc
    rw [hbl] at hc
    rw [hnext]
    rcases List.mem_append.mp hc with hc | hc
    · have := hwf.2 c hc
      omega
    · rw [List.mem_singleton] at hc
      subst hc
      exact Nat.lt_succ_self _
/-- A successful `rescheduleBooking` keeps ids unique: the update writes
back under the same id. -/
theorem WF_reschedule {db db' : DB} {now : Millis} {bookingId : Nat} {s e : Millis}
    {userId : String} {bk : Booking}
    (h : rescheduleBooking db now bookingId s e userId = .ok (db', bk))
    (hwf : WF db) : WF db' := by
  obtain ⟨ex, hfind, hbk, -, -, hnext, hbl, -⟩ := rescheduleBooking_ok h
  subst hbk
  have hexmem := List.mem_of_find?_eq_some hfind
  constructor
  · rw [hbl, List.map_map]
    have hfun : (Booking.id ∘ fun c : Booking =>
        if c.id == ex.id then { ex with startTime := s, endTime := e } else c) =
        Booking.id := by
      funext c
      by_cases hc : c.id = ex.id <;> simp [Function.comp, hc]
    rw [hfun]
    exact hwf.1
  · intro c hc
    rw [hbl, List.mem_map] at hc
    obtain ⟨c', hc', rfl⟩ := hc
    rw [hnext]
    by_cases h' : c'.id = ex.id
    · simpa [h'] using hwf.2 ex hexmem
    · simpa [h'] using hwf.2 c' hc'

/-- One sequential call — successful or erroring — preserves both
well-formedness and the room invariant. -/
theorem applyOp_preserves (r : String) (db : DB) (op : Op)
    (h : WF db ∧ NoDoubleBooking db r) :
    WF (applyOp db op) ∧ NoDoubleBooking (applyOp db op) r := by
  cases op with
  | create roomId s e userId now =>
    simp only [applyOp]
    cases hc : createBooking db now roomId s e userId with
    | ok res =>
      obtain ⟨db', bk⟩ := res
      exact ⟨WF_create hc h.1, NoDoubleBooking_create r hc h.2⟩
    | error msg => exact h
  | reschedule bookingId s e userId now =>
    simp only [applyOp]
    cases hc : rescheduleBooking db now bookingId s e userId with
    | ok res =>
      obtain ⟨db', bk⟩ := res
      exact ⟨WF_reschedule hc h.1, NoDoubleBooking_reschedule r hc h.1 h.2⟩
    | error msg => exact h

/-- Any sequence of sequential calls preserves both properties. -/
theorem runOps_preserves (r : String) (ops : List Op) (db : DB)
    (h : WF db ∧ NoDoubleBooking db r) :
    WF (runOps db ops) ∧ NoDoubleBooking (runOps db ops) r := by
  induction ops generalizing db with
  | nil => exact h
  | cons op rest ih =>
    rw [runOps, List.foldl_cons]
    exact ih (applyOp db op) (applyOp_preserves r db op h)

/-- C1: starting from a well-formed store (distinct Mongo ids) in which
the room's live bookings are pairwise non-overlapping, any sequence of
sequentially executed `createBooking`/`rescheduleBooking` calls — each
committing on success and leaving the state unchanged on error — keeps
the room's live bookings pairwise non-overlapping. -/
theorem noDoubleBooking_invariant (db : DB) (roomId : String) (ops : List Op)
    (hwf : WF db) (hinv : NoDoubleBooking db roomId) :
    NoDoubleBooking (runOps db ops) roomId :=
  (runOps_preserves roomId ops db ⟨hwf, hinv⟩).2

/-- Witness for `noDoubleBooking_invariant` on the concrete store and
call sequence. -/
theorem noDoubleBooking_invariant_witness :
    WF dbW ∧ NoDoubleBooking dbW "r1" ∧ NoDoubleBooking (runOps dbW opsW) "r1" := by
  have hwf : WF dbW := ⟨by simp [dbW], by simp [dbW]⟩
  have hinv : NoDoubleBooking dbW "r1" := by
    simp [NoDoubleBooking, liveBookingsFor, dbW]
  exact ⟨hwf, hinv, noDoubleBooking_invariant dbW "r1" opsW hwf hinv⟩

/-- C8: `isDateInPast date now` is true iff `date` is strictly before
`now`, exact to the instant in both the same-calendar-day branch and the
other branch; in particular one second before `now` is in the past and one
second after `now` is not. -/
theorem isDateInPast_spec (date now : Millis) :
    (isDateInPast date now = true ↔ date < now) ∧
    isDateInPast (now - 1000) now = true ∧
    isDateInPast (now + 1000) now = false := by
  refine ⟨?_, ?_, ?_⟩ <;> unfold isDateInPast <;> split <;> simp <;> omega
